import Mathlib

/-!
Verification of the rmount mount-lifecycle supervisor against its
natural-language specification.

The repository snapshot ships only documentation (README, docs, Dockerfile,
example notebook); the Python package `rmount/` itself is not included.
The definitions below are therefore a shallow embedding modelled from the
specification's description of the supervisor: its state machine,
restart policy, health monitor, process handle accounting, mountness
probe and scoped-acquisition (context-manager) form.
-/

namespace RMount

/-- Modelled from the spec: the authoritative lifecycle state of a
MountSupervisor (`UNMOUNTED → MOUNTING → MOUNTED → {RESTARTING → MOUNTING}
→ UNMOUNTING → UNMOUNTED`, with terminal `FAILED`). The data-model section
calls the terminal state TERMINATED; the state-machine section names it
FAILED, and we use that name. -/
inductive SupervisorState where
  | UNMOUNTED
  | MOUNTING
  | MOUNTED
  | RESTARTING
  | UNMOUNTING
  | FAILED
deriving DecidableEq, Repr

/-- Modelled from the spec: HealthEvent, the tagged variant produced by the
HealthMonitor and consumed once by the supervisor. -/
inductive HealthEvent where
  | Alive
  | ProcessExited (code : Int)
  | MountpointLost
  | ProbeTimeout
deriving DecidableEq, Repr

/-- Modelled from the spec: RestartPolicy configuration — a bounded number
of attempts within a bounded time window, with delays growing
exponentially with the attempt count. -/
structure RestartPolicy where
  maxAttempts : Nat
  windowSeconds : Nat
  baseDelay : Nat
deriving DecidableEq, Repr

/-- Modelled from the spec: the outcome of consulting the RestartPolicy —
either retry after a delay, or give up. -/
inductive RestartDecision where
  | Retry (delay : Nat)
  | GiveUp
deriving DecidableEq, Repr

/-- Modelled from the spec: the exponential backoff curve; the delay grows
with the attempt count (the episode is bounded by the attempt and window
limits rather than by capping the delay, matching the spec's
`backoff=[1s,2s,4s]` scenario). -/
def backoffDelay (p : RestartPolicy) (attemptCount : Nat) : Nat :=
  p.baseDelay * 2 ^ attemptCount

/-- Modelled from the spec: the RestartPolicy as a pure decision function
mapping (attempt count, elapsed time since first failure) to a decision. -/
def restartDecision (p : RestartPolicy) (attemptCount elapsed : Nat) : RestartDecision :=
  if attemptCount < p.maxAttempts ∧ elapsed ≤ p.windowSeconds then
    RestartDecision.Retry (backoffDelay p attemptCount)
  else
    RestartDecision.GiveUp

/-- Modelled from the spec: the error taxonomy surfaced by `mount`.
`AlreadyMountedError` is the fast-fail answer when `mount` is called
outside UNMOUNTED; `LaunchError` when the executable cannot be spawned;
`RestartsExhaustedError` is terminal, surfaced on the FAILED transition. -/
inductive MountError where
  | AlreadyMountedError
  | LaunchError
  | RestartsExhaustedError
deriving DecidableEq, Repr

/-- Modelled from the spec: the possible fates of one startup attempt of the
external mount process: the spawn itself fails; the process reaches
readiness (MountnessProbe confirms the mountpoint); or the attempt fails
early (readiness timeout or early process exit) and is handed to the
restart path. -/
inductive AttemptOutcome where
  | launchFail
  | ready
  | failEarly
deriving DecidableEq, Repr

/-- Modelled from the spec: the `mount()` startup/restart loop. `env k`
gives the fate of attempt `k`; `a` is the current attempt count,
`elapsed` the time since the first failure of the episode, and `ds`
accumulates the delays slept between consecutive attempts. The loop
re-enters only while the policy authorizes a retry, which requires
`a < p.maxAttempts`; hence with fuel `p.maxAttempts + 1` the fuel is never
exhausted, and the fuel-0 value mirrors the GiveUp outcome. -/
def mountRun (p : RestartPolicy) (env : Nat → AttemptOutcome) :
    Nat → Nat → Nat → List Nat → SupervisorState × Option MountError × List Nat
  | 0, _, _, ds => (SupervisorState.FAILED, some MountError.RestartsExhaustedError, ds)
  | fuel + 1, a, elapsed, ds =>
    match env a with
    | AttemptOutcome.launchFail => (SupervisorState.UNMOUNTED, some MountError.LaunchError, ds)
    | AttemptOutcome.ready => (SupervisorState.MOUNTED, none, ds)
    | AttemptOutcome.failEarly =>
      match restartDecision p a elapsed with
      | RestartDecision.GiveUp =>
          (SupervisorState.FAILED, some MountError.RestartsExhaustedError, ds)
      | RestartDecision.Retry d => mountRun p env fuel (a + 1) (elapsed + d) (ds ++ [d])

/-- The elapsed time at the moment attempt `k` of a crash-looping episode is
evaluated: the sum of the backoff delays slept before it. -/
def elapsedAt (p : RestartPolicy) (k : Nat) : Nat :=
  ((List.range k).map (backoffDelay p)).sum

/-- Modelled from the spec: the observable state of one MountSupervisor.
`liveHandles` counts the live ProcessHandles owned by the supervisor;
`mounted` is what the OS mount table (MountnessProbe) reports for the
mountpoint; `unmountRequested` records that an explicit `unmount()` is
pending; `lastAlive` and `sampleAge` describe the most recent
HealthMonitor sample and its age, used by the `is_alive` freshness
window. -/
structure SupState where
  state : SupervisorState
  liveHandles : Nat
  mounted : Bool
  unmountRequested : Bool
  lastAlive : Bool
  sampleAge : Nat
deriving DecidableEq, Repr

/-- The state of a freshly constructed supervisor: unmounted, no process,
no pending request, no health sample. -/
def initState : SupState :=
  { state := SupervisorState.UNMOUNTED, liveHandles := 0, mounted := false,
    unmountRequested := false, lastAlive := false, sampleAge := 0 }

/-- Modelled from the spec: `is_alive()` — non-blocking (a total function of
the supervisor state), true iff the state is MOUNTED and the most recent
HealthMonitor sample was Alive within the freshness window `w`. -/
def is_alive (w : Nat) (s : SupState) : Bool :=
  match s.state with
  | SupervisorState.MOUNTED => s.lastAlive && decide (s.sampleAge ≤ w)
  | _ => false

/-- Modelled from the spec: `unmount()`. On an already-UNMOUNTED or FAILED
supervisor it is a no-op returning success with no process-termination
attempt. Otherwise it stops the monitor, terminates the process
(signalling only if a live handle exists), verifies the mountpoint is
released and marks the supervisor UNMOUNTED. The result is
(new state, success, whether a process-termination attempt was made). -/
def unmount (s : SupState) : SupState × Bool × Bool :=
  if s.state = SupervisorState.UNMOUNTED ∨ s.state = SupervisorState.FAILED then
    (s, true, false)
  else
    ({ state := SupervisorState.UNMOUNTED, liveHandles := 0, mounted := false,
       unmountRequested := false, lastAlive := false, sampleAge := 0 },
     true, s.liveHandles != 0)

/-- Modelled from the spec: the `mount()` API call. It fails fast with
`AlreadyMountedError` when the supervisor is not UNMOUNTED, leaving the
in-flight session untouched; otherwise it runs the startup/restart loop
and installs the resulting session state (a live handle, a confirmed
mountpoint and a fresh Alive sample exactly when the loop reached
MOUNTED). -/
def mount (p : RestartPolicy) (env : Nat → AttemptOutcome) (s : SupState) :
    SupState × Option MountError :=
  if s.state = SupervisorState.UNMOUNTED then
    let r := mountRun p env (p.maxAttempts + 1) 0 0 []
    ({ state := r.1,
       liveHandles := if r.1 = SupervisorState.MOUNTED then 1 else 0,
       mounted := decide (r.1 = SupervisorState.MOUNTED),
       unmountRequested := false,
       lastAlive := decide (r.1 = SupervisorState.MOUNTED),
       sampleAge := 0 }, r.2.1)
  else
    (s, some MountError.AlreadyMountedError)

/-- Modelled from the spec: the supervisor's local handling of a detected
failure — consult the RestartPolicy; on Retry re-enter MOUNTING with no
error surfaced to the caller, on GiveUp transition to FAILED and surface
the terminal `RestartsExhaustedError`. -/
def handleFailure (p : RestartPolicy) (a elapsed : Nat) :
    SupervisorState × Option MountError :=
  match restartDecision p a elapsed with
  | RestartDecision.Retry _ => (SupervisorState.MOUNTING, none)
  | RestartDecision.GiveUp => (SupervisorState.FAILED, some MountError.RestartsExhaustedError)

/-- Modelled from the spec: how the supervisor consumes one HealthEvent
while MOUNTED — Alive keeps it MOUNTED; every other event is first handed
to the restart path. -/
def handleHealthEvent (p : RestartPolicy) (ev : HealthEvent) (a elapsed : Nat) :
    SupervisorState × Option MountError :=
  match ev with
  | HealthEvent.Alive => (SupervisorState.MOUNTED, none)
  | _ => handleFailure p a elapsed

/-- Modelled from the spec: the scoped-acquisition (context-manager) form.
Enter calls `mount`; if enter raises, the protected block never runs and
the error propagates. Otherwise the block runs (`body` says whether it
completes or raises); on either exit path, exit calls `unmount`
unconditionally, and a block exception propagates after the cleanup.
The result is (final supervisor state, whether an exception propagated). -/
def remoteMountWith (p : RestartPolicy) (env : Nat → AttemptOutcome)
    (s : SupState) (body : Bool) : SupState × Bool :=
  let m := mount p env s
  match m.2 with
  | some _ => (m.1, true)
  | none =>
    if body then ((unmount m.1).1, false)
    else ((unmount m.1).1, true)

/-- Modelled from the spec: the atomic transitions of one MountSupervisor.
Each constructor is one critical section executed under the supervisor's
transition lock, by either the foreground caller or the background
HealthMonitor; the nondeterministic interleaving of these steps models
the concurrency between them. Starting a process adds a live handle;
teardown reaps it; a pending restart checks `unmountRequested` before
re-entering MOUNTING, so an explicit unmount takes precedence over a
queued restart. -/
inductive Step : SupState → SupState → Prop where
  | mountStart (s : SupState) (h : s.state = SupervisorState.UNMOUNTED) :
      Step s { s with state := SupervisorState.MOUNTING, liveHandles := s.liveHandles + 1 }
  | mountReady (s : SupState) (h : s.state = SupervisorState.MOUNTING) :
      Step s { s with state := SupervisorState.MOUNTED, mounted := true,
                      lastAlive := true, sampleAge := 0 }
  | mountFail (s : SupState) (h : s.state = SupervisorState.MOUNTING) :
      Step s { s with state := SupervisorState.RESTARTING, liveHandles := 0,
                      mounted := false, lastAlive := false }
  | sampleAlive (s : SupState) (h : s.state = SupervisorState.MOUNTED)
      (hm : s.mounted = true) :
      Step s { s with lastAlive := true, sampleAge := 0 }
  | tickAge (s : SupState) :
      Step s { s with sampleAge := s.sampleAge + 1 }
  | mountLostExternally (s : SupState) (h : s.state = SupervisorState.MOUNTED) :
      Step s { s with mounted := false }
  | monitorFailure (s : SupState) (h : s.state = SupervisorState.MOUNTED) :
      Step s { s with state := SupervisorState.RESTARTING, liveHandles := 0,
                      mounted := false, lastAlive := false }
  | restartRetry (s : SupState) (h : s.state = SupervisorState.RESTARTING)
      (hu : s.unmountRequested = false) :
      Step s { s with state := SupervisorState.MOUNTING, liveHandles := s.liveHandles + 1 }
  | restartGiveUp (s : SupState) (h : s.state = SupervisorState.RESTARTING) :
      Step s { s with state := SupervisorState.FAILED }
  | requestUnmount (s : SupState) :
      Step s { s with unmountRequested := true }
  | unmountProceed (s : SupState) (h1 : s.state ≠ SupervisorState.UNMOUNTED)
      (h2 : s.state ≠ SupervisorState.FAILED)
      (h3 : s.state ≠ SupervisorState.UNMOUNTING) :
      Step s { s with state := SupervisorState.UNMOUNTING, liveHandles := 0,
                      lastAlive := false }
  | unmountDone (s : SupState) (h : s.state = SupervisorState.UNMOUNTING) :
      Step s { s with state := SupervisorState.UNMOUNTED, mounted := false,
                      unmountRequested := false }

/-- The states a supervisor can reach from construction through any
interleaving of caller and monitor steps. -/
inductive Reachable : SupState → Prop where
  | start : Reachable initState
  | step (s t : SupState) (hs : Reachable s) (h : Step s t) : Reachable t

/-- The number of live process handles determined by the lifecycle state:
a session owns exactly one handle while MOUNTING or MOUNTED, none
otherwise. -/
def handlesFor : SupervisorState → Nat
  | SupervisorState.MOUNTING => 1
  | SupervisorState.MOUNTED => 1
  | _ => 0

/-- The inductive invariant of the supervisor transition system: the live
handle count is determined by the lifecycle state, and the mountpoint is
not mounted in UNMOUNTED, FAILED or RESTARTING. -/
def Inv (s : SupState) : Prop :=
  s.liveHandles = handlesFor s.state ∧
  ((s.state = SupervisorState.UNMOUNTED ∨ s.state = SupervisorState.FAILED ∨
    s.state = SupervisorState.RESTARTING) → s.mounted = false)

/-- Modelled from the spec: what one HealthMonitor tick observes — the
process and probe are fine; the process exited; the probe reports the
mountpoint gone; the probe itself raised (permission or transient I/O
error); or an explicit stop was requested. -/
inductive TickInput where
  | procOk
  | procExited (code : Int)
  | mountLost
  | probeError
  | stopRequest
deriving DecidableEq, Repr

/-- Modelled from the spec: the HealthMonitor's classification of one tick.
`none` means the loop stops (explicit stop request); every other
observation, including a probe error, is classified as a HealthEvent —
probe errors become `ProbeTimeout` rather than crashing the loop. -/
def classifyTick : TickInput → Option HealthEvent
  | TickInput.procOk => some HealthEvent.Alive
  | TickInput.procExited c => some (HealthEvent.ProcessExited c)
  | TickInput.mountLost => some HealthEvent.MountpointLost
  | TickInput.probeError => some HealthEvent.ProbeTimeout
  | TickInput.stopRequest => none

/-- Modelled from the spec: the HealthMonitor loop over a stream of tick
observations. It emits one HealthEvent per tick and terminates only on an
explicit stop request; the flag reports whether it stopped on request. -/
def monitorRun : List TickInput → List HealthEvent × Bool
  | [] => ([], false)
  | i :: rest =>
    match classifyTick i with
    | none => ([], true)
    | some ev => (ev :: (monitorRun rest).1, (monitorRun rest).2)

/-- Modelled from the spec: the result of the MountnessProbe, keeping
"not a mountpoint", "path does not exist" and "query failed" as distinct
outcomes rather than collapsing them to false. -/
inductive ProbeResult where
  | isMountpoint
  | notMountpoint
  | pathMissing
  | queryFailed
deriving DecidableEq, Repr

/-- Modelled from the spec: what the OS reports about the probed path —
whether the mount-table query itself succeeded, whether the path exists,
and whether it appears in the mount table. -/
structure FsView where
  queryOk : Bool
  pathExists : Bool
  inMountTable : Bool
deriving DecidableEq, Repr

/-- Modelled from the spec: `is_mounted(path)`, the MountnessProbe
implemented over the OS mount-table query. -/
def is_mounted (fs : FsView) : ProbeResult :=
  if fs.queryOk = false then ProbeResult.queryFailed
  else if fs.pathExists = false then ProbeResult.pathMissing
  else if fs.inMountTable then ProbeResult.isMountpoint
  else ProbeResult.notMountpoint

/-- A concrete restart policy used by the witnesses: three attempts, a
100-second window, one-second base delay (backoff 1s, 2s, 4s). -/
def p0 : RestartPolicy :=
  { maxAttempts := 3, windowSeconds := 100, baseDelay := 1 }

/-- A concrete supervisor state with a mounted live session, used by the
witnesses and counterexample. -/
def sMounted : SupState :=
  { state := SupervisorState.MOUNTED, liveHandles := 1, mounted := true,
    unmountRequested := false, lastAlive := true, sampleAge := 0 }

/-! ## Helper lemmas -/

/-- Inverting a Retry decision: the policy only authorizes a retry below the
attempt bound and inside the time window, and the delay is the backoff
delay of the current attempt count. -/
lemma restartDecision_retry {p : RestartPolicy} {a e d : Nat}
    (h : restartDecision p a e = RestartDecision.Retry d) :
    a < p.maxAttempts ∧ e ≤ p.windowSeconds ∧ d = backoffDelay p a := by
  unfold restartDecision at h
  split at h
  · rename_i hc
    cases h
    exact ⟨hc.1, hc.2, rfl⟩
  · cases h

/-- Every run of the startup/restart loop ends in one of exactly three ways:
mounted with no error, a launch error, or retry exhaustion with the
terminal FAILED state. -/
lemma mountRun_cases (p : RestartPolicy) (env : Nat → AttemptOutcome) :
    ∀ fuel a elapsed ds,
      ((mountRun p env fuel a elapsed ds).2.1 = none ∧
        (mountRun p env fuel a elapsed ds).1 = SupervisorState.MOUNTED) ∨
      ((mountRun p env fuel a elapsed ds).2.1 = some MountError.LaunchError ∧
        (mountRun p env fuel a elapsed ds).1 = SupervisorState.UNMOUNTED) ∨
      ((mountRun p env fuel a elapsed ds).2.1 = some MountError.RestartsExhaustedError ∧
        (mountRun p env fuel a elapsed ds).1 = SupervisorState.FAILED) := by
  intro fuel
  induction fuel with
  | zero =>
    intro a elapsed ds
    right; right; exact ⟨rfl, rfl⟩
  | succ n ih =>
    intro a elapsed ds
    cases henv : env a with
    | launchFail => right; left; simp [mountRun, henv]
    | ready => left; simp [mountRun, henv]
    | failEarly =>
      cases hd : restartDecision p a elapsed with
      | GiveUp => right; right; simp [mountRun, henv, hd]
      | Retry d =>
        simpa [mountRun, henv, hd] using ih (a + 1) (elapsed + d) (ds ++ [d])

/-! ## Claim theorems -/

/-- C4: for every supervisor not in the UNMOUNTED state, `mount()` fails
fast by raising `AlreadyMountedError`, and the in-flight first mount
session is left unchanged by the failed second call. -/
theorem mount_fails_fast_when_not_unmounted (p : RestartPolicy)
    (env : Nat → AttemptOutcome) (s : SupState)
    (h : s.state ≠ SupervisorState.UNMOUNTED) :
    mount p env s = (s, some MountError.AlreadyMountedError) := by
  unfold mount
  simp [h]

theorem mount_fails_fast_when_not_unmounted_w :
    sMounted.state ≠ SupervisorState.UNMOUNTED ∧
    mount p0 (fun _ => AttemptOutcome.ready) sMounted
      = (sMounted, some MountError.AlreadyMountedError) :=
  ⟨by decide,
   mount_fails_fast_when_not_unmounted p0 (fun _ => AttemptOutcome.ready) sMounted (by decide)⟩

/-- C5: `unmount()` is idempotent — both of two consecutive calls return
success, the second call leaves the state unchanged (a no-op), and the
second call makes no process-termination attempt. -/
theorem unmount_idempotent (s : SupState) :
    (unmount s).2.1 = true ∧
    (unmount (unmount s).1).2.1 = true ∧
    (unmount (unmount s).1).1 = (unmount s).1 ∧
    (unmount (unmount s).1).2.2 = false := by
  unfold unmount
  by_cases h : s.state = SupervisorState.UNMOUNTED ∨ s.state = SupervisorState.FAILED
  · simp [h]
  · simp [h]

/-- C9: `is_alive()` is a total (hence non-raising, non-blocking) function
of the supervisor state; it returns true exactly when the state is
MOUNTED and the latest HealthMonitor sample was Alive within the
freshness window, and false in every other situation. -/
theorem is_alive_reports_mounted_fresh (w : Nat) (s : SupState) :
    (is_alive w s = true ↔
      (s.state = SupervisorState.MOUNTED ∧ s.lastAlive = true ∧ s.sampleAge ≤ w)) ∧
    (s.state ≠ SupervisorState.MOUNTED → is_alive w s = false) := by
  unfold is_alive
  cases hs : s.state <;> simp [hs]

theorem is_alive_reports_mounted_fresh_w :
    initState.state ≠ SupervisorState.MOUNTED ∧ is_alive 0 initState = false :=
  ⟨by decide, (is_alive_reports_mounted_fresh 0 initState).2 (by decide)⟩

/-- C10: the MountnessProbe distinguishes "query failed", "path does not
exist" and "not a mountpoint" as three pairwise-distinct outcomes rather
than collapsing the latter two to false. -/
theorem probe_distinguishes_outcomes (fs : FsView) :
    (fs.queryOk = false → is_mounted fs = ProbeResult.queryFailed) ∧
    (fs.queryOk = true → fs.pathExists = false → is_mounted fs = ProbeResult.pathMissing) ∧
    (fs.queryOk = true → fs.pathExists = true → fs.inMountTable = false →
      is_mounted fs = ProbeResult.notMountpoint) ∧
    ProbeResult.queryFailed ≠ ProbeResult.notMountpoint ∧
    ProbeResult.pathMissing ≠ ProbeResult.notMountpoint ∧
    ProbeResult.queryFailed ≠ ProbeResult.pathMissing := by
  refine ⟨fun h1 => by simp [is_mounted, h1],
          fun h1 h2 => by simp [is_mounted, h1, h2],
          fun h1 h2 h3 => by simp [is_mounted, h1, h2, h3],
          by decide, by decide, by decide⟩

theorem probe_distinguishes_outcomes_w :
    is_mounted { queryOk := false, pathExists := true, inMountTable := true }
      = ProbeResult.queryFailed ∧
    is_mounted { queryOk := true, pathExists := false, inMountTable := true }
      = ProbeResult.pathMissing ∧
    is_mounted { queryOk := true, pathExists := true, inMountTable := false }
      = ProbeResult.notMountpoint :=
  ⟨(probe_distinguishes_outcomes { queryOk := false, pathExists := true, inMountTable := true }).1
     rfl,
   (probe_distinguishes_outcomes { queryOk := true, pathExists := false, inMountTable := true }).2.1
     rfl rfl,
   (probe_distinguishes_outcomes { queryOk := true, pathExists := true, inMountTable := false }).2.2.1
     rfl rfl rfl⟩

/-- One more slept backoff delay extends the elapsed time of the episode. -/
lemma elapsedAt_succ (p : RestartPolicy) (k : Nat) :
    elapsedAt p (k + 1) = elapsedAt p k + backoffDelay p k := by
  unfold elapsedAt
  rw [List.range_succ, List.map_append, List.sum_append]
  simp

/-- With a positive base delay the backoff delay strictly increases with
the attempt count. -/
lemma backoffDelay_strictMono {p : RestartPolicy} (hb : 0 < p.baseDelay)
    {i j : Nat} (hij : i < j) : backoffDelay p i < backoffDelay p j := by
  unfold backoffDelay
  have h2 : 2 ^ i < 2 ^ j := Nat.pow_lt_pow_right (by norm_num) hij
  exact Nat.mul_lt_mul_of_le_of_lt (Nat.le_refl _) h2 hb

/-- The exact trace of a crash-looping episode: starting from attempt count
`a` with the matching elapsed time, and a time window wide enough for the
whole episode, the loop performs one retry per remaining authorized
attempt, sleeping exactly the backoff delays `a, a+1, ...`, and ends
FAILED with the terminal error. -/
lemma crashLoop_run (p : RestartPolicy)
    (hw : ∀ k, k < p.maxAttempts → elapsedAt p k ≤ p.windowSeconds) :
    ∀ fuel a ds, p.maxAttempts - a < fuel → a ≤ p.maxAttempts →
      mountRun p (fun _ => AttemptOutcome.failEarly) fuel a (elapsedAt p a) ds
        = (SupervisorState.FAILED, some MountError.RestartsExhaustedError,
           ds ++ (List.range' a (p.maxAttempts - a)).map (backoffDelay p)) := by
  intro fuel
  induction fuel with
  | zero =>
    intro a ds hfuel _
    exact absurd hfuel (Nat.not_lt_zero _)
  | succ n ih =>
    intro a ds hfuel ha
    rcases Nat.lt_or_ge a p.maxAttempts with hlt | hge
    · have hd : restartDecision p a (elapsedAt p a)
          = RestartDecision.Retry (backoffDelay p a) := by
        unfold restartDecision
        rw [if_pos ⟨hlt, hw a hlt⟩]
      have hrec := ih (a + 1) (ds ++ [backoffDelay p a]) (by omega) (by omega)
      rw [elapsedAt_succ] at hrec
      simp only [mountRun, hd]
      rw [hrec]
      have hsplit : p.maxAttempts - a = (p.maxAttempts - (a + 1)) + 1 := by omega
      rw [List.append_assoc, hsplit, List.range'_succ, List.map_cons]
      rfl
    · have hae : a = p.maxAttempts := by omega
      subst hae
      have hd : restartDecision p p.maxAttempts (elapsedAt p p.maxAttempts)
          = RestartDecision.GiveUp := by
        unfold restartDecision
        rw [if_neg]
        intro hc
        exact absurd hc.1 (by omega)
      simp [mountRun, hd]

/-- C1: for a process that exits immediately with nonzero status (every
attempt fails early), `mount()`'s loop reaches the terminal FAILED state
after exactly the configured number of restart attempts, the delays slept
between consecutive attempts are exactly the policy's backoff delays, and
that backoff delay strictly increases with the attempt count. The
hypotheses state the non-degenerate configuration: a positive base delay
and a time window wide enough not to cut the episode short. -/
theorem mount_crash_exhausts_policy (p : RestartPolicy) (hb : 0 < p.baseDelay)
    (hw : ∀ k, k < p.maxAttempts → elapsedAt p k ≤ p.windowSeconds) :
    mountRun p (fun _ => AttemptOutcome.failEarly) (p.maxAttempts + 1) 0 0 []
      = (SupervisorState.FAILED, some MountError.RestartsExhaustedError,
         (List.range p.maxAttempts).map (backoffDelay p)) ∧
    ((List.range p.maxAttempts).map (backoffDelay p)).length = p.maxAttempts ∧
    ∀ i j, i < j → backoffDelay p i < backoffDelay p j := by
  refine ⟨?_, by simp, fun i j hij => backoffDelay_strictMono hb hij⟩
  have h := crashLoop_run p hw (p.maxAttempts + 1) 0 [] (by omega) (by omega)
  have h0 : elapsedAt p 0 = 0 := rfl
  rw [h0] at h
  rw [h]
  simp [List.range_eq_range']

theorem mount_crash_exhausts_policy_w :
    mountRun p0 (fun _ => AttemptOutcome.failEarly) (p0.maxAttempts + 1) 0 0 []
      = (SupervisorState.FAILED, some MountError.RestartsExhaustedError,
         (List.range p0.maxAttempts).map (backoffDelay p0)) ∧
    backoffDelay p0 0 < backoffDelay p0 1 :=
  ⟨(mount_crash_exhausts_policy p0 (by decide) (by decide)).1,
   (mount_crash_exhausts_policy p0 (by decide) (by decide)).2.2 0 1 (by decide)⟩

/-- C6 (amended): a `mount()` call either succeeds (no error, MOUNTED),
fails fast with `AlreadyMountedError` because the supervisor was not
UNMOUNTED (leaving the session untouched), or surfaces `LaunchError` or
the terminal `RestartsExhaustedError`; it never returns without an error
unless it reached MOUNTED. Every non-Alive HealthEvent is first handled
by the restart path: no error is surfaced when the policy authorizes a
retry, and only retry exhaustion surfaces the terminal error. -/
theorem mount_error_taxonomy_amended (p : RestartPolicy) (env : Nat → AttemptOutcome)
    (s : SupState) (ev : HealthEvent) (a elapsed : Nat)
    (hev : ev ≠ HealthEvent.Alive) :
    (((mount p env s).2 = none ∧ (mount p env s).1.state = SupervisorState.MOUNTED) ∨
     (s.state ≠ SupervisorState.UNMOUNTED ∧
       mount p env s = (s, some MountError.AlreadyMountedError)) ∨
     ((mount p env s).2 = some MountError.LaunchError) ∨
     ((mount p env s).2 = some MountError.RestartsExhaustedError ∧
       (mount p env s).1.state = SupervisorState.FAILED)) ∧
    (((handleHealthEvent p ev a elapsed).2 = none ∧
       (handleHealthEvent p ev a elapsed).1 = SupervisorState.MOUNTING ∧
       restartDecision p a elapsed = RestartDecision.Retry (backoffDelay p a)) ∨
     ((handleHealthEvent p ev a elapsed).2 = some MountError.RestartsExhaustedError ∧
       (handleHealthEvent p ev a elapsed).1 = SupervisorState.FAILED ∧
       restartDecision p a elapsed = RestartDecision.GiveUp)) := by
  constructor
  · by_cases hs : s.state = SupervisorState.UNMOUNTED
    · rcases mountRun_cases p env (p.maxAttempts + 1) 0 0 [] with
        ⟨h1, h2⟩ | ⟨h1, h2⟩ | ⟨h1, h2⟩
      · left
        constructor <;> simp [mount, hs, h1, h2]
      · right; right; left
        simp [mount, hs, h1]
      · right; right; right
        constructor <;> simp [mount, hs, h1, h2]
    · right; left
      exact ⟨hs, by simp [mount, hs]⟩
  · have hh : handleHealthEvent p ev a elapsed = handleFailure p a elapsed := by
      cases ev with
      | Alive => exact absurd rfl hev
      | ProcessExited c => rfl
      | MountpointLost => rfl
      | ProbeTimeout => rfl
    rw [hh]
    unfold handleFailure
    cases hd : restartDecision p a elapsed with
    | Retry d =>
      left
      have hinv := restartDecision_retry hd
      simp [hd, hinv.2.2]
    | GiveUp =>
      right
      simp [hd]

theorem mount_error_taxonomy_amended_w :
    (((mount p0 (fun _ => AttemptOutcome.ready) initState).2 = none ∧
       (mount p0 (fun _ => AttemptOutcome.ready) initState).1.state
         = SupervisorState.MOUNTED) ∨
     (initState.state ≠ SupervisorState.UNMOUNTED ∧
       mount p0 (fun _ => AttemptOutcome.ready) initState
         = (initState, some MountError.AlreadyMountedError)) ∨
     ((mount p0 (fun _ => AttemptOutcome.ready) initState).2
         = some MountError.LaunchError) ∨
     ((mount p0 (fun _ => AttemptOutcome.ready) initState).2
         = some MountError.RestartsExhaustedError ∧
       (mount p0 (fun _ => AttemptOutcome.ready) initState).1.state
         = SupervisorState.FAILED)) ∧
    (((handleHealthEvent p0 HealthEvent.MountpointLost 0 0).2 = none ∧
       (handleHealthEvent p0 HealthEvent.MountpointLost 0 0).1
         = SupervisorState.MOUNTING ∧
       restartDecision p0 0 0 = RestartDecision.Retry (backoffDelay p0 0)) ∨
     ((handleHealthEvent p0 HealthEvent.MountpointLost 0 0).2
         = some MountError.RestartsExhaustedError ∧
       (handleHealthEvent p0 HealthEvent.MountpointLost 0 0).1
         = SupervisorState.FAILED ∧
       restartDecision p0 0 0 = RestartDecision.GiveUp)) :=
  mount_error_taxonomy_amended p0 (fun _ => AttemptOutcome.ready) initState
    HealthEvent.MountpointLost 0 0 (by decide)

/-- C6 counterexample: `mount()` on an already-mounted supervisor returns
`AlreadyMountedError`, which is neither `LaunchError` nor
`RestartsExhaustedError`; so the claim that `mount()` errors only with
those two is false as stated. -/
theorem mount_error_beyond_taxonomy_cx :
    mount p0 (fun _ => AttemptOutcome.failEarly) sMounted
      = (sMounted, some MountError.AlreadyMountedError) ∧
    MountError.AlreadyMountedError ≠ MountError.LaunchError ∧
    MountError.AlreadyMountedError ≠ MountError.RestartsExhaustedError := by
  refine ⟨by decide, by decide, by decide⟩

/-- Every atomic transition preserves the supervisor invariant. -/
lemma step_preserves_inv {s t : SupState} (h : Step s t) (hs : Inv s) : Inv t := by
  obtain ⟨h1, h2⟩ := hs
  cases h with
  | mountStart hst => exact ⟨by simp_all [handlesFor], by simp⟩
  | mountReady hst => exact ⟨by simp_all [handlesFor], by simp⟩
  | mountFail hst => exact ⟨by simp [handlesFor], by simp⟩
  | sampleAlive hst hm => exact ⟨h1, fun hc => h2 hc⟩
  | tickAge => exact ⟨h1, fun hc => h2 hc⟩
  | mountLostExternally hst => exact ⟨h1, by simp⟩
  | monitorFailure hst => exact ⟨by simp [handlesFor], by simp⟩
  | restartRetry hst hu => exact ⟨by simp_all [handlesFor], by simp⟩
  | restartGiveUp hst => exact ⟨by simp_all [handlesFor], by simp_all⟩
  | requestUnmount => exact ⟨h1, fun hc => h2 hc⟩
  | unmountProceed h1s h2s h3s => exact ⟨by simp [handlesFor], by simp⟩
  | unmountDone hst => exact ⟨by simp_all [handlesFor], by simp⟩

/-- Every reachable supervisor state satisfies the invariant. -/
lemma inv_reachable {s : SupState} (h : Reachable s) : Inv s := by
  induction h with
  | start => exact ⟨rfl, fun _ => rfl⟩
  | step s t hs hstep ih => exact step_preserves_inv hstep ih

/-- C2: in every reachable state of a supervisor — under any interleaving of
caller steps (mount, unmount request, unmount) and monitor steps (health
sampling, failure handling, restart), including an explicit unmount
racing an in-flight restart — at most one live ProcessHandle exists. -/
theorem at_most_one_live_handle (s : SupState) (hs : Reachable s) :
    s.liveHandles ≤ 1 := by
  obtain ⟨st, lh, m, u, la, sa⟩ := s
  have h := (inv_reachable hs).1
  simp only at h
  rw [h]
  cases st <;> simp [handlesFor]

theorem at_most_one_live_handle_w : initState.liveHandles ≤ 1 :=
  at_most_one_live_handle initState Reachable.start

/-- C3: for every reachable supervisor state, calling `unmount()` and then
immediately `is_alive()` returns false and the mountpoint probe reports
not mounted; and whenever the state is UNMOUNTED or terminal FAILED
(the spec's data-model section calls the terminal state TERMINATED), the
mountpoint is not reported as mounted. -/
theorem unmount_then_not_alive (w : Nat) (s : SupState) (hs : Reachable s) :
    is_alive w (unmount s).1 = false ∧
    (unmount s).1.mounted = false ∧
    ((s.state = SupervisorState.UNMOUNTED ∨ s.state = SupervisorState.FAILED) →
      s.mounted = false ∧ is_alive w s = false) := by
  have hinv := inv_reachable hs
  refine ⟨?_, ?_, ?_⟩
  · unfold unmount
    by_cases h : s.state = SupervisorState.UNMOUNTED ∨ s.state = SupervisorState.FAILED
    · rw [if_pos h]
      unfold is_alive
      rcases h with h | h <;> simp [h]
    · rw [if_neg h]
      rfl
  · unfold unmount
    by_cases h : s.state = SupervisorState.UNMOUNTED ∨ s.state = SupervisorState.FAILED
    · rw [if_pos h]
      exact hinv.2 (h.elim (fun x => Or.inl x) (fun x => Or.inr (Or.inl x)))
    · rw [if_neg h]
  · intro h
    refine ⟨hinv.2 (h.elim (fun x => Or.inl x) (fun x => Or.inr (Or.inl x))), ?_⟩
    unfold is_alive
    rcases h with h | h <;> simp [h]

theorem unmount_then_not_alive_w :
    is_alive 0 (unmount initState).1 = false ∧
    (unmount initState).1.mounted = false ∧
    ((initState.state = SupervisorState.UNMOUNTED ∨
        initState.state = SupervisorState.FAILED) →
      initState.mounted = false ∧ is_alive 0 initState = false) :=
  unmount_then_not_alive 0 initState Reachable.start

/-- A `mount()` call that reports no error left the supervisor MOUNTED. -/
lemma mount_none_mounted {p : RestartPolicy} {env : Nat → AttemptOutcome}
    {s : SupState} (h : (mount p env s).2 = none) :
    (mount p env s).1.state = SupervisorState.MOUNTED := by
  unfold mount at h ⊢
  by_cases hs : s.state = SupervisorState.UNMOUNTED
  · simp only [hs, if_pos] at h ⊢
    rcases mountRun_cases p env (p.maxAttempts + 1) 0 0 [] with
      ⟨h1, h2⟩ | ⟨h1, h2⟩ | ⟨h1, h2⟩
    · simpa using h2
    · rw [h1] at h
      simp at h
    · rw [h1] at h
      simp at h
  · simp [hs] at h

/-- Unmounting a MOUNTED supervisor tears the session down to the released
unmounted state. -/
lemma unmount_of_mounted {s : SupState} (h : s.state = SupervisorState.MOUNTED) :
    (unmount s).1
      = { state := SupervisorState.UNMOUNTED, liveHandles := 0, mounted := false,
          unmountRequested := false, lastAlive := false, sampleAge := 0 } := by
  unfold unmount
  rw [if_neg]
  · simp [h]

/-- C7: for every execution of the scoped-acquisition form, enter calls
`mount()`; if enter raised, the protected block never runs and the error
propagates; on every exit path of the protected block — normal completion
or a raised exception (which propagates after cleanup) — exit calls
`unmount()` unconditionally, leaving the supervisor UNMOUNTED with the
mountpoint released and not alive. -/
theorem scoped_exit_always_unmounts (p : RestartPolicy) (env : Nat → AttemptOutcome)
    (w : Nat) (s : SupState) (body : Bool) :
    ((mount p env s).2 ≠ none ∧
      remoteMountWith p env s body = ((mount p env s).1, true)) ∨
    ((mount p env s).2 = none ∧
      (remoteMountWith p env s body).1 = (unmount (mount p env s).1).1 ∧
      (remoteMountWith p env s body).2 = !body ∧
      is_alive w (remoteMountWith p env s body).1 = false ∧
      (remoteMountWith p env s body).1.mounted = false ∧
      (remoteMountWith p env s body).1.state = SupervisorState.UNMOUNTED) := by
  cases hm : (mount p env s).2 with
  | some e =>
    left
    refine ⟨by simp [hm], ?_⟩
    unfold remoteMountWith
    simp [hm]
  | none =>
    right
    have hm1 := mount_none_mounted hm
    have hu := unmount_of_mounted hm1
    have hr : remoteMountWith p env s body = ((unmount (mount p env s).1).1, !body) := by
      unfold remoteMountWith
      cases body <;> simp [hm]
    rw [hr]
    refine ⟨rfl, rfl, rfl, ?_, ?_, ?_⟩ <;> simp [hu, is_alive]

/-- C8: the HealthMonitor loop terminates only on an explicit stop request:
on a stream with no stop request it classifies and emits one HealthEvent
per tick (it never crashes out early), and every tick on which the probe
itself raised is classified as `ProbeTimeout`. -/
theorem monitor_survives_probe_errors (ins : List TickInput)
    (h : TickInput.stopRequest ∉ ins) :
    (monitorRun ins).2 = false ∧
    (monitorRun ins).1.length = ins.length ∧
    ∀ k : Nat, ins[k]? = some TickInput.probeError →
      (monitorRun ins).1[k]? = some HealthEvent.ProbeTimeout := by
  induction ins with
  | nil =>
    refine ⟨rfl, rfl, fun k hk => ?_⟩
    simp at hk
  | cons i rest ih =>
    have hi : i ≠ TickInput.stopRequest := fun he => h (he ▸ List.mem_cons_self i rest)
    have hrest : TickInput.stopRequest ∉ rest := fun hm => h (List.mem_cons_of_mem i hm)
    obtain ⟨ih1, ih2, ih3⟩ := ih hrest
    obtain ⟨ev, hev⟩ : ∃ ev, classifyTick i = some ev := by
      cases i with
      | procOk => exact ⟨_, rfl⟩
      | procExited c => exact ⟨_, rfl⟩
      | mountLost => exact ⟨_, rfl⟩
      | probeError => exact ⟨_, rfl⟩
      | stopRequest => exact absurd rfl hi
    refine ⟨?_, ?_, ?_⟩
    · simp [monitorRun, hev, ih1]
    · simp [monitorRun, hev, ih2]
    · intro k hk
      cases k with
      | zero =>
        simp at hk
        subst hk
        simp [monitorRun, classifyTick]
      | succ n =>
        simp only [List.getElem?_cons_succ] at hk
        simp only [monitorRun, hev, List.getElem?_cons_succ]
        exact ih3 n hk

theorem monitor_survives_probe_errors_w :
    (monitorRun [TickInput.probeError, TickInput.procOk]).2 = false ∧
    (monitorRun [TickInput.probeError, TickInput.procOk]).1.length = 2 ∧
    (monitorRun [TickInput.probeError, TickInput.procOk]).1[0]?
      = some HealthEvent.ProbeTimeout :=
  ⟨(monitor_survives_probe_errors [TickInput.probeError, TickInput.procOk] (by decide)).1,
   (monitor_survives_probe_errors [TickInput.probeError, TickInput.procOk] (by decide)).2.1,
   (monitor_survives_probe_errors [TickInput.probeError, TickInput.procOk] (by decide)).2.2
     0 rfl⟩

end RMount
